import Mathlib

/-!
Verification of the iab-interrogation-tool log-parsing and filtering core.

The definitions below are a shallow embedding of the Python sources:
  * `src/models/log_formatter.py`  — `LogFormatter` (LOG_PATTERN, NAME_PATTERN,
    timestamp normalization, `parse_line`)
  * `src/models/log_parser.py`     — `LogParser` (USER_PATTERN, `_load_logs`,
    `_extract_user`, `get_sorted_logs`)
  * `src/views/workspace.py`       — `Workspace.update_view` pipeline
  * `src/views/main_window.py`     — `MainWindow.update_workspace` pipeline
  * `src/views/left_panel.py`      — group A/B selection handlers

Strings are modelled as Lean `String`/`List Char`; Python regexes are
modelled by deterministic backtracking matchers specialised to the concrete
patterns of the source (lazy groups try the shortest span first, greedy
whitespace runs are maximal, alternations are tried left to right, which is
exactly the Python `re` behaviour for these patterns).  Python character
classes (`\s`, `\w`) are restricted to the ASCII and Polish alphabet that
the program's inputs use.
-/

/-- Python `str` whitespace (`\s` and `.strip()`), restricted to ASCII. -/
def pySpaceChar (c : Char) : Bool :=
  c = ' ' || c = '\t' || c = '\n' || c = '\r' || c = '\x0B' || c = '\x0C'

/-- Python `str.strip()` on a character list. -/
def pyStripList (l : List Char) : List Char :=
  ((l.dropWhile pySpaceChar).reverse.dropWhile pySpaceChar).reverse

/-- Python `str.strip()`. -/
def pyStrip (s : String) : String :=
  (pyStripList s.toList).asString

/-- Python `str.lstrip()`. -/
def pyLstrip (s : String) : String :=
  (s.toList.dropWhile pySpaceChar).asString

/-- The Polish uppercase letters appearing in the source's character classes. -/
def polishUpper (c : Char) : Bool :=
  c = 'Ą' || c = 'Ć' || c = 'Ę' || c = 'Ł' || c = 'Ń' ||
  c = 'Ó' || c = 'Ś' || c = 'Ź' || c = 'Ż'

/-- The corresponding Polish lowercase letters. -/
def polishLower (c : Char) : Bool :=
  c = 'ą' || c = 'ć' || c = 'ę' || c = 'ł' || c = 'ń' ||
  c = 'ó' || c = 'ś' || c = 'ź' || c = 'ż'

/-- The regex class `[A-ZĄĆĘŁŃÓŚŹŻ]` used for the start of a speaker name. -/
def upperNameStart (c : Char) : Bool :=
  ('A' ≤ c && c ≤ 'Z') || polishUpper c

/-- Python `\w` restricted to the alphabet appearing in this program. -/
def pyWordChar (c : Char) : Bool :=
  ('a' ≤ c && c ≤ 'z') || ('A' ≤ c && c ≤ 'Z') || ('0' ≤ c && c ≤ '9') ||
  c = '_' || polishUpper c || polishLower c

/-- Python `str.lower()` restricted to the alphabet appearing in this program. -/
def pyLowerChar (c : Char) : Char :=
  if 'A' ≤ c && c ≤ 'Z' then Char.ofNat (c.toNat + 32)
  else if c = 'Ą' then 'ą' else if c = 'Ć' then 'ć' else if c = 'Ę' then 'ę'
  else if c = 'Ł' then 'ł' else if c = 'Ń' then 'ń' else if c = 'Ó' then 'ó'
  else if c = 'Ś' then 'ś' else if c = 'Ź' then 'ź' else if c = 'Ż' then 'ż'
  else c

/-- Python `str.lower()`. -/
def pyLower (s : String) : String :=
  (s.toList.map pyLowerChar).asString

/-- `needle` occurs as a contiguous sublist of the second argument. -/
def occursWithin (needle : List Char) : List Char → Bool
  | [] => needle.isEmpty
  | c :: t => needle.isPrefixOf (c :: t) || occursWithin needle t

/-- Python substring test `needle in hay`. -/
def pyContains (hay needle : String) : Bool :=
  occursWithin needle.toList hay.toList

/-- Python `hay.startswith(p)`. -/
def pyStartsWith (hay p : String) : Bool :=
  p.toList.isPrefixOf hay.toList

namespace LogFormatter

/-- `LOG_PATTERN = ^\[(?P<timestamp>[^\]]+)\]\s+\[(?P<action>[^\]]+)\]\s+(?P<message>.*)$`
matched with `re.match`.  The bracketed spans are maximal runs of
non-`]` characters, the separators are nonempty whitespace runs, and the
message is everything up to the end of the line (`.` does not cross a
newline; `$` also accepts one trailing newline). -/
def logPatternMatch (s : String) : Option (String × String × String) :=
  match s.toList with
  | '[' :: r0 =>
    let ts := r0.takeWhile (fun c => c ≠ ']')
    match r0.dropWhile (fun c => c ≠ ']') with
    | ']' :: r2 =>
      if ts.isEmpty then none else
      let sp1 := r2.takeWhile pySpaceChar
      let r3 := r2.dropWhile pySpaceChar
      if sp1.isEmpty then none else
      match r3 with
      | '[' :: r4 =>
        let ac := r4.takeWhile (fun c => c ≠ ']')
        match r4.dropWhile (fun c => c ≠ ']') with
        | ']' :: r6 =>
          if ac.isEmpty then none else
          let sp2 := r6.takeWhile pySpaceChar
          let r7 := r6.dropWhile pySpaceChar
          if sp2.isEmpty then none else
          let msg := r7.takeWhile (fun c => c ≠ '\n')
          match r7.dropWhile (fun c => c ≠ '\n') with
          | [] => some (ts.asString, ac.asString, msg.asString)
          | ['\n'] => some (ts.asString, ac.asString, msg.asString)
          | _ => none
        | _ => none
      | _ => none
    | _ => none
  | _ => none

/-- The six parsed components of a timestamp. -/
structure DateTime6 where
  y : Nat
  mo : Nat
  d : Nat
  h : Nat
  mi : Nat
  s : Nat
deriving DecidableEq, Repr

def isLeapYear (y : Nat) : Bool :=
  y % 4 = 0 && (y % 100 ≠ 0 || y % 400 = 0)

def daysInMonth (y mo : Nat) : Nat :=
  if mo = 2 then (if isLeapYear y then 29 else 28)
  else if mo = 4 || mo = 6 || mo = 9 || mo = 11 then 30
  else 31

def digitsToNat (l : List Char) : Nat :=
  l.foldl (fun a c => 10 * a + (c.toNat - '0'.toNat)) 0

/-- Read a field of one or two digits (the `%d`/`%m`/`%H`/`%M`/`%S` shape). -/
def readNum2 (l : List Char) : Option (Nat × List Char) :=
  let ds := l.takeWhile Char.isDigit
  if ds.length = 1 || ds.length = 2 then
    some (digitsToNat ds, l.dropWhile Char.isDigit)
  else none

def expectChar (c : Char) : List Char → Option (List Char)
  | x :: r => if x = c then some r else none
  | [] => none

/-- `datetime.strptime(s, "%d.%m.%Y %H:%M:%S")`: day 1–31 (and within the
month, validated by the `datetime` constructor with leap years), month 1–12,
exactly four year digits with year ≥ 1, whitespace run between date and
time, hour ≤ 23, minute ≤ 59, second ≤ 59 (the regex admits 60/61 but the
constructor then raises, so the net effect is failure), and the whole string
must be consumed.  Failure (a `ValueError` in Python) is `none`. -/
def strptimeDMY (s : String) : Option DateTime6 := do
  let (d, r1) ← readNum2 s.toList
  if d < 1 || 31 < d then none else
  let r2 ← expectChar '.' r1
  let (mo, r3) ← readNum2 r2
  if mo < 1 || 12 < mo then none else
  let r4 ← expectChar '.' r3
  let yds := r4.takeWhile Char.isDigit
  if yds.length ≠ 4 then none else
  let y := digitsToNat yds
  if y < 1 then none else
  let r5 := r4.dropWhile Char.isDigit
  let sp := r5.takeWhile pySpaceChar
  if sp.isEmpty then none else
  let r6 := r5.dropWhile pySpaceChar
  let (h, r7) ← readNum2 r6
  if 23 < h then none else
  let r8 ← expectChar ':' r7
  let (mi, r9) ← readNum2 r8
  if 59 < mi then none else
  let r10 ← expectChar ':' r9
  let (sec, r11) ← readNum2 r10
  if 59 < sec then none else
  if ¬ r11.isEmpty then none else
  if daysInMonth y mo < d then none else
  some ⟨y, mo, d, h, mi, sec⟩

def pad2 (n : Nat) : String :=
  if n < 10 then "0" ++ toString n else toString n

/-- `dt.strftime("%Y-%m-%d")` (glibc `%Y` prints the year unpadded). -/
def fmtDate (dt : DateTime6) : String :=
  toString dt.y ++ "-" ++ pad2 dt.mo ++ "-" ++ pad2 dt.d

/-- `dt.strftime("%H:%M:%S")`. -/
def fmtTime (dt : DateTime6) : String :=
  pad2 dt.h ++ ":" ++ pad2 dt.mi ++ ":" ++ pad2 dt.s

/-- The dictionary returned by `LogFormatter.parse_line` in
`src/models/log_formatter.py` (this is the revision checked into `src/`:
it has a `name` key and leaves the message unmodified). -/
structure ParsedLine where
  timestamp : String
  date : String
  time : String
  action : String
  name : String
  message : String
deriving DecidableEq, Repr

/-- The regex class `[\w\s\-\']` of name characters in `NAME_PATTERN`. -/
def nameClassSrc (c : Char) : Bool :=
  pyWordChar c || pySpaceChar c || c = '-' || c = '\''

/-- Literal tone alternatives of `NAME_PATTERN`: `mówi|szepcze|krzyczy`. -/
def tones : List (List Char) :=
  ["mówi".toList, "szepcze".toList, "krzyczy".toList]

/-- Addressee tail of `(\s+do\s+[A-ZĄĆĘŁŃÓŚŹŻ][\w\s\-\']+?)?:` — after the
possessive first letter, lazily take name-class characters until the
terminating `:`.  Returns the suffix after the colon. -/
def matchAddrTail : List Char → Option (List Char)
  | c :: rest =>
    if nameClassSrc c then
      match rest with
      | ':' :: r => some r
      | _ => matchAddrTail rest
    else none
  | [] => none

/-- Addressee part `[A-ZĄĆĘŁŃÓŚŹŻ][\w\s\-\']+?` followed by the colon. -/
def matchAddr : List Char → Option (List Char)
  | c :: rest => if upperNameStart c then matchAddrTail rest else none
  | [] => none

/-- After the tone verb: the optional `(\s+do\s+Addressee)?` group (tried
first, as the regex prefers matching an optional group) and then the
terminating `:`.  Returns the suffix after the colon. -/
def afterTone (r : List Char) : Option (List Char) :=
  let grp : Option (List Char) :=
    let sp := r.takeWhile pySpaceChar
    let r1 := r.dropWhile pySpaceChar
    if sp.isEmpty then none else
    match r1 with
    | 'd' :: 'o' :: r2 =>
      let sp2 := r2.takeWhile pySpaceChar
      let r3 := r2.dropWhile pySpaceChar
      if sp2.isEmpty then none else matchAddr r3
    | _ => none
  match grp with
  | some r' => some r'
  | none => match r with | ':' :: r' => some r' | _ => none

/-- Try a literal tone, continuing with `after` on success. -/
def tryTone (t : List Char) (after : List Char → Option (List Char))
    (r : List Char) : Option (List Char) :=
  if t.isPrefixOf r then after (r.drop t.length) else none

/-- The tone alternation of `NAME_PATTERN`, alternatives in source order. -/
def matchTonesSrc (r : List Char) : Option (List Char) :=
  match tryTone "mówi".toList afterTone r with
  | some x => some x
  | none =>
    match tryTone "szepcze".toList afterTone r with
    | some x => some x
    | none => tryTone "krzyczy".toList afterTone r

/-- `\s+` then the tone alternation, after a candidate name span. -/
def afterNameSrc (rest : List Char) : Option (List Char) :=
  let sp := rest.takeWhile pySpaceChar
  if sp.isEmpty then none else matchTonesSrc (rest.dropWhile pySpaceChar)

/-- Lazy growth of the `(?P<name>[A-ZĄĆĘŁŃÓŚŹŻ][\w\s\-\']+?)` group: extend
the name one character at a time (shortest first) until the rest of the
pattern matches.  Returns the captured name. -/
def growNameSrc (c0 : Char) (revTail : List Char) : List Char → Option (List Char)
  | [] => none
  | c :: rest =>
    if nameClassSrc c then
      match afterNameSrc rest with
      | some _ => some (c0 :: (c :: revTail).reverse)
      | none => growNameSrc c0 (c :: revTail) rest
    else none

/-- `NAME_PATTERN.match(message)` — the `name` group on success. -/
def NAME_PATTERN_match (message : String) : Option String :=
  match message.toList with
  | c0 :: rest =>
    if upperNameStart c0 then (growNameSrc c0 [] rest).map List.asString else none
  | [] => none

/-- `LogFormatter.parse_line` exactly as in `src/models/log_formatter.py`:
outer match against `LOG_PATTERN`, strip action and message, normalize the
timestamp (both fields empty on `ValueError`), and capture the speaker
name via `NAME_PATTERN` (empty string when absent).  Returns `none` when
`LOG_PATTERN` does not match. -/
def parse_line (line : String) : Option ParsedLine :=
  match logPatternMatch line with
  | none => none
  | some (ts, ac, ms) =>
    let action := pyStrip ac
    let message := pyStrip ms
    let dtp :=
      match strptimeDMY ts with
      | some dt => (fmtDate dt, fmtTime dt)
      | none => ("", "")
    let name :=
      match NAME_PATTERN_match message with
      | some nm => pyStrip nm
      | none => ""
    some { timestamp := ts, date := dtp.1, time := dtp.2, action := action,
           name := name, message := message }

end LogFormatter

namespace LogFormatterSpec

/-!
The repository's tests (`tests/test_log_formatter.py`) and both view
pipelines call a richer `LogFormatter` revision: `parse_line` with
`prefix`/`is_radio` keys, `_parse_timestamp`, and `_extract_speaker_info`
(the Speaker Extractor of the spec).  That revision is not under `src/` —
only its tests and callers are — so it is modelled here from the spec's
words (§4.2): a leading clause `<Name> <tone-verb>[ (<extra>)][ do
<Addressee>]:`, the full matched span (trimmed) as the speaker clause,
`is_radio` true iff the lower-cased extra equals "radio", and the message
with the matched span removed from its start (trimmed).
-/

/-- Modelled from the spec: the parsed record of the final `parse_line`
revision (tests read keys `timestamp`, `date`, `time`, `action`, `prefix`,
`is_radio`, `message`); the `prefix` key is the spec's `speaker_clause`. -/
structure SpeakerLine where
  timestamp : String
  date : String
  time : String
  action : String
  speaker_clause : String
  is_radio : Bool
  message : String
deriving DecidableEq, Repr

/-- Modelled from the spec: after the tone verb, the optional
`( <extra> )` parenthetical (free text without `)`), then the optional
`do <Addressee>` clause and the terminating colon.  Returns the extra
capture (if any) and the suffix after the colon. -/
def afterToneSpec (r : List Char) : Option (Option (List Char) × List Char) :=
  let withExtra : Option (Option (List Char) × List Char) :=
    let sp := r.takeWhile pySpaceChar
    let r1 := r.dropWhile pySpaceChar
    if sp.isEmpty then none else
    match r1 with
    | '(' :: r2 =>
      let inner := r2.takeWhile (fun c => c ≠ ')')
      if inner.isEmpty then none else
      match r2.dropWhile (fun c => c ≠ ')') with
      | ')' :: r3 =>
        match LogFormatter.afterTone r3 with
        | some r4 => some (some inner, r4)
        | none => none
      | _ => none
    | _ => none
  match withExtra with
  | some x => some x
  | none =>
    match LogFormatter.afterTone r with
    | some r' => some (none, r')
    | none => none

/-- Modelled from the spec: the tone-verb alternation of the speaker
clause, alternatives tried in order, each followed by `afterToneSpec`. -/
def matchTonesSpec (r : List Char) : Option (Option (List Char) × List Char) :=
  let try1 (t : List Char) : Option (Option (List Char) × List Char) :=
    if t.isPrefixOf r then afterToneSpec (r.drop t.length) else none
  match try1 "mówi".toList with
  | some x => some x
  | none =>
    match try1 "szepcze".toList with
    | some x => some x
    | none => try1 "krzyczy".toList

/-- Modelled from the spec: whitespace then the tone alternation. -/
def afterNameSpec (rest : List Char) : Option (Option (List Char) × List Char) :=
  let sp := rest.takeWhile pySpaceChar
  if sp.isEmpty then none else matchTonesSpec (rest.dropWhile pySpaceChar)

/-- Modelled from the spec: lazy growth of the leading name (uppercase
start, then name-class characters, shortest span first). -/
def growNameSpec (revTail : List Char) :
    List Char → Option (Option (List Char) × List Char)
  | [] => none
  | c :: rest =>
    if LogFormatter.nameClassSrc c then
      match afterNameSpec rest with
      | some x => some x
      | none => growNameSpec (c :: revTail) rest
    else none

/-- Modelled from the spec: match the full leading speaker clause against
the message.  On success returns the matched span (everything up to and
including the colon), the parenthetical extra (if present), and the
residual message text after the span. -/
def speakerMatch (message : String) : Option (String × Option String × String) :=
  match message.toList with
  | c0 :: rest =>
    if upperNameStart c0 then
      match growNameSpec [] rest with
      | some (extra, rem) =>
        let l := message.toList
        let span := l.take (l.length - rem.length)
        some (span.asString, extra.map List.asString, rem.asString)
      | none => none
    else none
  | [] => none

/-- Modelled from the spec: `_extract_speaker_info` — on a match return the
trimmed span as the speaker clause, `is_radio` true iff the lower-cased
extra is exactly "radio", and the residual message trimmed; on no match
return an empty clause, `is_radio = false` and the message unchanged. -/
def extract_speaker_info (message : String) : String × Bool × String :=
  match speakerMatch message with
  | some (span, extra, rest) =>
    (pyStrip span,
     (match extra with | some e => pyLower e = "radio" | none => false),
     pyStrip rest)
  | none => ("", false, message)

/-- Modelled from the spec: the final `parse_line` revision — outer
`LOG_PATTERN` match (shared with the `src/` revision), timestamp
normalization with both fields empty on failure, then speaker extraction
on the trimmed post-action text. -/
def parse_line (line : String) : Option SpeakerLine :=
  match LogFormatter.logPatternMatch line with
  | none => none
  | some (ts, ac, ms) =>
    let action := pyStrip ac
    let post := pyStrip ms
    let dtp :=
      match LogFormatter.strptimeDMY ts with
      | some dt => (LogFormatter.fmtDate dt, LogFormatter.fmtTime dt)
      | none => ("", "")
    let ext := extract_speaker_info post
    some { timestamp := ts, date := dtp.1, time := dtp.2, action := action,
           speaker_clause := ext.1, is_radio := ext.2.1, message := ext.2.2 }

end LogFormatterSpec

/-- Sort direction of the view (`self.sort_order` / `self._order`):
`asc` is file order, `desc` is file order reversed. -/
inductive SortOrder where
  | asc
  | desc
deriving DecidableEq, Repr

/-- The view state read by the two pipelines: the toggle flags (all default
true), the "Show only related" flag, the selected interviewer/interrogated
name lists and the sort order.  `filter_action_tags` exists only in the
`Workspace` revision. -/
structure ViewCfg where
  show_date : Bool
  show_hour : Bool
  filter_me : Bool
  filter_do : Bool
  filter_ooc : Bool
  filter_pw : Bool
  filter_commands : Bool
  filter_unrecognized : Bool
  filter_radio : Bool
  filter_action_tags : Bool
  show_only_related : Bool
  selected_I : List String
  selected_O : List String
  order : SortOrder
deriving DecidableEq, Repr

/-- The default view state after loading: every toggle checked, "Show only
related" unchecked, no selections, ascending order. -/
def defaultCfg : ViewCfg :=
  { show_date := true, show_hour := true, filter_me := true, filter_do := true,
    filter_ooc := true, filter_pw := true, filter_commands := true,
    filter_unrecognized := true, filter_radio := true,
    filter_action_tags := true, show_only_related := false,
    selected_I := [], selected_O := [], order := .asc }

/-- Order the raw lines once, up front (`logs_to_iterate`). -/
def orient (o : SortOrder) (lines : List String) : List String :=
  match o with
  | .asc => lines
  | .desc => lines.reverse

/-- Assign 1-based row indices in surviving order (`row_index`). -/
def numberFrom (i : Nat) : List α → List (Nat × α)
  | [] => []
  | a :: as => (i, a) :: numberFrom (i + 1) as

/-- The `[date time]` display timestamp rebuilt from the toggles (empty
parts are skipped; no brackets when both are hidden or absent). -/
def mkTimestamp (show_date show_hour : Bool) (date time : String) : String :=
  let parts :=
    (if show_date && date ≠ "" then [date] else []) ++
    (if show_hour && time ≠ "" then [time] else [])
  if parts.isEmpty then "" else "[" ++ String.intercalate " " parts ++ "]"

namespace Workspace

/-- Membership tag of a rendered row in `Workspace.update_view` (the HTML
span wrappers are the renderer's concern and are omitted). -/
inductive WsTag where
  | noTag
  | tagI
  | tagO
deriving DecidableEq, Repr

/-- One rendered row of `Workspace.update_view`: either the raw passthrough
of an unparsed line or the formatted payload (display timestamp, tag,
whether the action label is shown, action, speaker clause, message). -/
inductive WsRow where
  | raw (line : String)
  | fmt (timestampShown : String) (tag : WsTag) (showAction : Bool)
      (action clause message : String)
deriving DecidableEq, Repr

open LogFormatterSpec in
/-- The per-line body of the `Workspace.update_view` loop in
`src/views/workspace.py`, given the parse result of the line; `none` means
the line is dropped (`continue` without appending a row).  Note the
unrecognized branch: an unparsed line is dropped when
`filter_unrecognized` is TRUE and shown when it is false. -/
def processParsed (cfg : ViewCfg) (line : String) :
    Option SpeakerLine → Option WsRow
  | none =>
    if cfg.filter_unrecognized then none else some (.raw line)
  | some p =>
    let action := p.action
    let clause := pyStrip p.speaker_clause
    let message := pyStrip p.message
    if action = "Akcja /me" && !cfg.filter_me then none
    else if action = "Akcja /do" && !cfg.filter_do then none
    else if action = "Czat OOC" && !cfg.filter_ooc then none
    else if action = "PW" && !cfg.filter_pw then none
    else if action = "Komenda" && !cfg.filter_commands then none
    else if !cfg.filter_radio && p.is_radio then none
    else
      let always_show := action = "Komenda"
      let combined := pyLower (pyStrip (clause ++ " " ++ message))
      let matching_I :=
        (cfg.selected_I.filter (fun nm => pyContains combined (pyLower nm))).map pyLower
      let matching_O :=
        (cfg.selected_O.filter (fun nm => pyContains combined (pyLower nm))).map pyLower
      if cfg.show_only_related && !always_show
          && matching_I.isEmpty && matching_O.isEmpty
          && !(p.is_radio
               && (cfg.selected_I.contains (pyLower clause)
                   || cfg.selected_O.contains (pyLower clause))) then
        none
      else
        let is_command_or_pw :=
          pyStartsWith message "/" || pyStartsWith message "." ||
          pyStartsWith message "["
        let tag : WsTag :=
          if is_command_or_pw then .noTag
          else
            let full_text := pyLower (pyStrip (clause ++ " " ++ message))
            if cfg.selected_I.any (fun nm => pyContains full_text (pyLower nm)) then
              .tagI
            else if cfg.selected_O.any (fun nm => pyContains full_text (pyLower nm)) then
              .tagO
            else .noTag
        some (.fmt (mkTimestamp cfg.show_date cfg.show_hour p.date p.time)
          tag cfg.filter_action_tags action clause message)

/-- The per-line step of `Workspace.update_view`. -/
def processLine (cfg : ViewCfg) (line : String) : Option WsRow :=
  processParsed cfg line (LogFormatterSpec.parse_line line)

/-- `Workspace.update_view`: order the transcript once, run the per-line
filter, and number the surviving rows 1..N. -/
def update_view (cfg : ViewCfg) (lines : List String) : List (Nat × WsRow) :=
  numberFrom 1 ((orient cfg.order lines).filterMap (processLine cfg))

end Workspace

namespace MainWindow

/-- One rendered row of `MainWindow.update_workspace`: the raw passthrough
of an unparsed line (shown when `filter_unrecognized` is true) or the
formatted payload (display timestamp, action, tag string, speaker clause,
message); HTML wrappers are the renderer's concern and are omitted. -/
inductive MwRow where
  | raw (line : String)
  | fmt (timestampShown action tag clause message : String)
deriving DecidableEq, Repr

/-- `ACTION_COLOR_MAP` membership test (`action not in ACTION_COLOR_MAP`);
note `"default"` is itself a key of the map. -/
def knownAction (a : String) : Bool :=
  a = "Czat IC" || a = "Czat OOC" || a = "Akcja /me" || a = "Akcja /do" ||
  a = "Komenda" || a = "PW" || a = "default"

open LogFormatterSpec in
/-- The `always_show` helper inside `MainWindow.update_workspace`:
`Komenda` lines and radio lines are always displayed. -/
def always_show (p : SpeakerLine) : Bool :=
  p.action = "Komenda" || p.is_radio

open LogFormatterSpec in
/-- The lower-cased selected names whose lower-cased form occurs in the
lower-cased concatenation of speaker clause and message (`matching_I` /
`matching_O`). -/
def relatedMatches (sel : List String) (p : SpeakerLine) : List String :=
  (sel.filter (fun nm =>
    pyContains (pyLower (p.speaker_clause ++ " " ++ p.message)) (pyLower nm))).map
    pyLower

open LogFormatterSpec in
/-- Whether a parsed line survives the "Show only related" step of
`MainWindow.update_workspace` (lines 343–360): everything passes when the
flag is off; otherwise `always_show` lines pass, and other lines pass iff
some selected name matches. -/
def relSurvives (selI selO : List String) (show_only_related : Bool)
    (p : SpeakerLine) : Bool :=
  !show_only_related || always_show p ||
  !(relatedMatches selI p).isEmpty || !(relatedMatches selO p).isEmpty

/-- The tag fragment for one group: `[I] ` for a single match, ordinal tags
`[I1] [I2] …` over the lexicographically sorted matches otherwise. -/
def tagGroup (letter : String) (ms : List String) : String :=
  match ms with
  | [] => ""
  | [_] => "[" ++ letter ++ "] "
  | _ =>
    (numberFrom 1 (ms.insertionSort (· ≤ ·))).foldl
      (fun acc p => acc ++ "[" ++ letter ++ toString p.1 ++ "] ") ""

open LogFormatterSpec in
/-- The per-line body of the `MainWindow.update_workspace` loop in
`src/views/main_window.py`, given the parse result; `none` means the line
is dropped.  An unparsed line is SHOWN when `filter_unrecognized` is true
(the sense opposite to `Workspace.update_view`). -/
def processParsed (cfg : ViewCfg) (line : String) :
    Option SpeakerLine → Option MwRow
  | none =>
    if cfg.filter_unrecognized then some (.raw line) else none
  | some p =>
    if !cfg.filter_radio &&
        (p.is_radio || pyContains line "** [Kanał:" ||
         pyStartsWith (pyLstrip p.message) "Audycja") then none
    else if p.action = "Akcja /me" && !cfg.filter_me then none
    else if p.action = "Akcja /do" && !cfg.filter_do then none
    else if p.action = "Czat OOC" && !cfg.filter_ooc then none
    else if p.action = "PW" && !cfg.filter_pw then none
    else if p.action = "Komenda" && !cfg.filter_commands then none
    else if !knownAction p.action && !cfg.filter_unrecognized then none
    else if !relSurvives cfg.selected_I cfg.selected_O cfg.show_only_related p then
      none
    else
      let tag :=
        if cfg.show_only_related && !always_show p then
          tagGroup "I" (relatedMatches cfg.selected_I p) ++
          tagGroup "O" (relatedMatches cfg.selected_O p)
        else ""
      some (.fmt (mkTimestamp cfg.show_date cfg.show_hour p.date p.time)
        p.action tag p.speaker_clause p.message)

/-- The per-line step of `MainWindow.update_workspace`. -/
def processLine (cfg : ViewCfg) (line : String) : Option MwRow :=
  processParsed cfg line (LogFormatterSpec.parse_line line)

/-- `MainWindow.update_workspace`: order the transcript once, run the
per-line filter, and number the surviving rows 1..N. -/
def update_workspace (cfg : ViewCfg) (lines : List String) : List (Nat × MwRow) :=
  numberFrom 1 ((orient cfg.order lines).filterMap (processLine cfg))

end MainWindow

namespace LogParser

/-!
`src/models/log_parser.py`.  Its `USER_PATTERN` is
`([\w\s\-]+?)\s+mÃ³wi(?:\s+\(([^)]+)\))?:` — the verb literal in the
source file is the mojibake byte sequence `m`, U+00C3, U+00B3, `w`, `i`
(the UTF-8 bytes of "mówi" decoded a second time), not the word "mówi"
itself.  The matcher below reproduces that literal exactly.
-/

/-- The regex class `[\w\s\-]` of `USER_PATTERN`'s name group. -/
def userClass (c : Char) : Bool :=
  pyWordChar c || pySpaceChar c || c = '-'

/-- The five-character verb literal of `USER_PATTERN` as it stands in the
source file: `m`, U+00C3, U+00B3, `w`, `i`. -/
def mojibakeVerb : List Char := ['m', 'Ã', '³', 'w', 'i']

/-- After the verb literal: the optional `(?:\s+\(([^)]+)\))?` group and
the terminating `:`. -/
def afterVerb (r : List Char) : Bool :=
  let grp : Bool :=
    let sp := r.takeWhile pySpaceChar
    let r1 := r.dropWhile pySpaceChar
    if sp.isEmpty then false else
    match r1 with
    | '(' :: r2 =>
      let inner := r2.takeWhile (fun c => c ≠ ')')
      if inner.isEmpty then false else
      match r2.dropWhile (fun c => c ≠ ')') with
      | ')' :: ':' :: _ => true
      | _ => false
    | _ => false
  if grp then true else
  match r with
  | ':' :: _ => true
  | _ => false

/-- `\s+` then the verb literal then `afterVerb`, following a candidate
name span. -/
def afterUserName (rest : List Char) : Bool :=
  let sp := rest.takeWhile pySpaceChar
  if sp.isEmpty then false else
  let r1 := rest.dropWhile pySpaceChar
  if mojibakeVerb.isPrefixOf r1 then afterVerb (r1.drop mojibakeVerb.length)
  else false

/-- Lazy growth of `([\w\s\-]+?)` (shortest span first), returning the
captured group on success. -/
def growUser (revAcc : List Char) : List Char → Option (List Char)
  | [] => none
  | c :: rest =>
    if userClass c then
      if afterUserName rest then some ((c :: revAcc).reverse)
      else growUser (c :: revAcc) rest
    else none

/-- `USER_PATTERN.search(line)` — leftmost match, returning group 1. -/
def USER_PATTERN_search : List Char → Option (List Char)
  | [] => none
  | c :: t =>
    match growUser [] (c :: t) with
    | some nm => some nm
    | none => USER_PATTERN_search t

/-- The state built by `LogParser.__init__`/`_load_logs`: the stripped
lines, the set of extracted users (modelled as a duplicate-free list), and
`user_frequencies` — a dict that `__init__` creates empty and that no
method of the class ever writes to. -/
structure LogParserState where
  logs : List String
  users : List String
  user_frequencies : List (String × Nat)
deriving DecidableEq, Repr

/-- `LogParser._extract_user`: add `match.group(1)` to the user set when
`USER_PATTERN` matches somewhere in the line. -/
def extract_user (users : List String) (line : String) : List String :=
  match USER_PATTERN_search line.toList with
  | some nm =>
    if users.contains nm.asString then users else users ++ [nm.asString]
  | none => users

/-- `LogParser._load_logs` on the physical lines of the file (file access
abstracted away): append each line stripped, extract users from the raw
line, and leave `user_frequencies` exactly as `__init__` made it — empty. -/
def load_logs (fileLines : List String) : LogParserState :=
  { logs := fileLines.map pyStrip,
    users := fileLines.foldl extract_user [],
    user_frequencies := [] }

/-- `LogParser.get_sorted_logs`: `sorted(self.logs, reverse=not ascending)`.
Python's `sorted` is a stable ascending sort by the lexicographic
code-point order on strings; `reverse=True` reverses the list before and
after the stable sort. -/
def get_sorted_logs (st : LogParserState) (ascending : Bool) : List String :=
  if ascending then st.logs.insertionSort (· ≤ ·)
  else (st.logs.reverse.insertionSort (· ≤ ·)).reverse

end LogParser

namespace LeftPanel

/-!
`src/views/left_panel.py`, `_on_interviewer_changed` and
`_on_interrogated_changed`.  Checking a name appends it to that group's
order list (guarded against duplicates) and calls `setChecked(False)` on
the same name's checkbox in the other group; Qt fires that checkbox's
change handler only if it was checked, and the unchecked branch of that
handler removes the name from the other order list.  Unchecking removes
the name from its own order list.  The net state transitions on the two
order lists are modelled below; when the other checkbox was not checked
the cascaded removal is a no-op, which `List.erase` reproduces.
-/

/-- The two selection order lists (`_interviewer_order`,
`_interrogated_order`). -/
structure SelState where
  I : List String
  O : List String
deriving DecidableEq, Repr

/-- A user action on the selection checkboxes. -/
inductive SelEvent where
  | checkI (n : String)
  | uncheckI (n : String)
  | checkO (n : String)
  | uncheckO (n : String)
deriving DecidableEq, Repr

/-- One checkbox change, as handled by `_on_interviewer_changed` /
`_on_interrogated_changed` together with the cascaded `setChecked(False)`
on the opposite group. -/
def step (st : SelState) : SelEvent → SelState
  | .checkI n =>
    { I := if st.I.contains n then st.I else st.I ++ [n], O := st.O.erase n }
  | .uncheckI n => { st with I := st.I.erase n }
  | .checkO n =>
    { I := st.I.erase n, O := if st.O.contains n then st.O else st.O ++ [n] }
  | .uncheckO n => { st with O := st.O.erase n }

/-- Both lists start empty (`_populate_name_selections` clears them). -/
def run (evs : List SelEvent) : SelState :=
  evs.foldl step ⟨[], []⟩

end LeftPanel

/-- A Python exception class, for modelling which exceptions can cross a
function boundary. -/
inductive PyExc where
  | valueError
  | typeError
deriving DecidableEq, Repr

namespace LogFormatterSpec

/-- `datetime.strptime` as a fallible call: it raises `ValueError` on any
parse failure. -/
def strptimeE (s : String) : Except PyExc LogFormatter.DateTime6 :=
  match LogFormatter.strptimeDMY s with
  | some dt => .ok dt
  | none => .error .valueError

/-- Modelled from the spec: `parse_line` with its exception behaviour made
explicit — the `try`/`except ValueError` around `strptime` absorbs exactly
`ValueError` (yielding empty date and time) and would re-raise anything
else; no other statement in the function can raise. -/
def parse_lineE (line : String) : Except PyExc (Option SpeakerLine) :=
  match LogFormatter.logPatternMatch line with
  | none => .ok none
  | some (ts, ac, ms) =>
    let action := pyStrip ac
    let post := pyStrip ms
    let dtpE : Except PyExc (String × String) :=
      match strptimeE ts with
      | .ok dt => .ok (LogFormatter.fmtDate dt, LogFormatter.fmtTime dt)
      | .error .valueError => .ok ("", "")
      | .error e => .error e
    match dtpE with
    | .error e => .error e
    | .ok dtp =>
      let ext := extract_speaker_info post
      .ok (some { timestamp := ts, date := dtp.1, time := dtp.2,
                  action := action, speaker_clause := ext.1,
                  is_radio := ext.2.1, message := ext.2.2 })

end LogFormatterSpec

namespace Workspace

/-- The mutable state of a `Workspace` object: the stored raw lines, the
view configuration, and the rendered records (the `setHtml` output,
abstracted to records). -/
structure WorkspaceSt where
  raw_logs : List String
  cfg : ViewCfg
  records : List (Nat × WsRow)
deriving DecidableEq, Repr

/-- The per-line loop of `update_view` with the parse step's exception
behaviour explicit: an exception escaping `parse_line` would propagate out
of the loop. -/
def rowsE (cfg : ViewCfg) : List String → Except PyExc (List WsRow)
  | [] => .ok []
  | l :: ls =>
    match LogFormatterSpec.parse_lineE l with
    | .error e => .error e
    | .ok p? =>
      match rowsE cfg ls with
      | .error e => .error e
      | .ok rest => .ok ((processParsed cfg l p?).toList ++ rest)

/-- `update_view` as a state transformer on the `Workspace` object, with
exception propagation explicit: it reads `raw_logs` and the view state and
replaces only the rendered records. -/
def update_viewE (st : WorkspaceSt) : Except PyExc WorkspaceSt :=
  match rowsE st.cfg (orient st.cfg.order st.raw_logs) with
  | .error e => .error e
  | .ok rows => .ok { st with records := numberFrom 1 rows }

end Workspace

/-! ### Helper lemmas -/

theorem numberFrom_map_snd (i : Nat) (l : List α) :
    (numberFrom i l).map Prod.snd = l := by
  induction l generalizing i with
  | nil => rfl
  | cons a as ih => simp [numberFrom, ih]

theorem numberFrom_map_fst (i : Nat) (l : List α) :
    (numberFrom i l).map Prod.fst = List.range' i l.length := by
  induction l generalizing i with
  | nil => rfl
  | cons a as ih => simp [numberFrom, ih, List.range'_succ]

theorem filterMap_reverse_eq (f : α → Option β) (l : List α) :
    l.reverse.filterMap f = (l.filterMap f).reverse := by
  induction l with
  | nil => rfl
  | cons a as ih =>
    simp only [List.reverse_cons, List.filterMap_append, List.filterMap_cons, ih]
    cases f a <;> simp

/-! ### The claims -/

/-- C1: the normal-speech scenario line parses to action "Czat IC",
speaker clause "Howard Goldberg mówi:", no radio flag, the message with the
matched clause removed from its start, and normalized date and time. -/
theorem C1_normal_speech_scenario :
    LogFormatterSpec.parse_line
      "[2.02.2025 22:19:38] [Czat IC] Howard Goldberg mówi: Na glebe skurwysynu." =
    some { timestamp := "2.02.2025 22:19:38", date := "2025-02-02",
           time := "22:19:38", action := "Czat IC",
           speaker_clause := "Howard Goldberg mówi:", is_radio := false,
           message := "Na glebe skurwysynu." } := by
  decide

/-- C2: the radio-call scenario line parses with the radio flag set and
the clause removed from the message; the workspace pipeline drops it when
the radio toggle is off and renders it (as the sole row) when the toggle
is on, and the main-window pipeline behaves the same way. -/
theorem C2_radio_scenario :
    LogFormatterSpec.parse_line
      "[2.02.2025 22:20:48] [Czat IC] John Doe mówi (radio): This is a radio call." =
      some { timestamp := "2.02.2025 22:20:48", date := "2025-02-02",
             time := "22:20:48", action := "Czat IC",
             speaker_clause := "John Doe mówi (radio):", is_radio := true,
             message := "This is a radio call." } ∧
    Workspace.update_view { defaultCfg with filter_radio := false }
      ["[2.02.2025 22:20:48] [Czat IC] John Doe mówi (radio): This is a radio call."] = [] ∧
    Workspace.update_view defaultCfg
      ["[2.02.2025 22:20:48] [Czat IC] John Doe mówi (radio): This is a radio call."] =
      [(1, .fmt "[2025-02-02 22:20:48]" .noTag true "Czat IC"
        "John Doe mówi (radio):" "This is a radio call.")] ∧
    MainWindow.update_workspace { defaultCfg with filter_radio := false }
      ["[2.02.2025 22:20:48] [Czat IC] John Doe mówi (radio): This is a radio call."] = [] ∧
    MainWindow.update_workspace defaultCfg
      ["[2.02.2025 22:20:48] [Czat IC] John Doe mówi (radio): This is a radio call."] =
      [(1, .fmt "[2025-02-02 22:20:48]" "Czat IC" ""
        "John Doe mówi (radio):" "This is a radio call.")] := by
  refine ⟨by decide, by decide, by decide, by decide, by decide⟩

/-- C3: on an unparsed line the two pipeline revisions disagree.
`MainWindow.update_workspace` does what the claim says: it shows the raw
passthrough exactly when the unrecognized toggle is true, and a dropped
line consumes no row index (the following surviving line gets index 1).
`Workspace.update_view` does the opposite: it drops the line when the
toggle is true and shows it when the toggle is false. -/
theorem C3_unrecognized_toggle_eval :
    MainWindow.update_workspace defaultCfg ["This is not a valid log line."] =
      [(1, .raw "This is not a valid log line.")] ∧
    MainWindow.update_workspace { defaultCfg with filter_unrecognized := false }
      ["This is not a valid log line.",
       "[2.02.2025 22:19:38] [Czat IC] Howard Goldberg mówi: Na glebe skurwysynu."] =
      [(1, .fmt "[2025-02-02 22:19:38]" "Czat IC" ""
        "Howard Goldberg mówi:" "Na glebe skurwysynu.")] ∧
    Workspace.update_view defaultCfg ["This is not a valid log line."] = [] ∧
    Workspace.update_view { defaultCfg with filter_unrecognized := false }
      ["This is not a valid log line."] =
      [(1, .raw "This is not a valid log line.")] := by
  refine ⟨by decide, by decide, by decide, by decide⟩

theorem fmtDate_ne_empty (dt : LogFormatter.DateTime6) :
    LogFormatter.fmtDate dt ≠ "" := by
  intro h
  have hl := congrArg String.length h
  have h1 : ("-" : String).length = 1 := rfl
  simp only [LogFormatter.fmtDate, String.length_append, h1, String.length_empty] at hl
  omega

theorem fmtTime_ne_empty (dt : LogFormatter.DateTime6) :
    LogFormatter.fmtTime dt ≠ "" := by
  intro h
  have hl := congrArg String.length h
  have h1 : (":" : String).length = 1 := rfl
  simp only [LogFormatter.fmtTime, String.length_append, h1, String.length_empty] at hl
  omega

/-- C4: for every line accepted by the outer pattern, the emitted date and
time agree with the timestamp normalization when it succeeds, and on any
normalization failure both fields are empty — never exactly one of the
two. -/
theorem C4_timestamp_both_or_neither :
    ∀ (line : String) (r : LogFormatter.ParsedLine),
      LogFormatter.parse_line line = some r →
      (match LogFormatter.strptimeDMY r.timestamp with
       | some dt =>
         r.date = LogFormatter.fmtDate dt ∧ r.time = LogFormatter.fmtTime dt
       | none => r.date = "" ∧ r.time = "") ∧
      (r.date = "" ↔ r.time = "") := by
  intro line r h
  unfold LogFormatter.parse_line at h
  cases h1 : LogFormatter.logPatternMatch line with
  | none => rw [h1] at h; exact absurd h (by simp)
  | some t =>
    obtain ⟨ts, ac, ms⟩ := t
    rw [h1] at h
    simp only [Option.some.injEq] at h
    subst h
    cases h2 : LogFormatter.strptimeDMY ts with
    | none => simp [h2]
    | some dt =>
      simp [h2, fmtDate_ne_empty dt, fmtTime_ne_empty dt]

/-- C4 witness: the theorem applied to the concrete line `"[x] [y] z"`,
whose timestamp text `"x"` fails normalization. -/
theorem C4_timestamp_both_or_neither_witness :
    LogFormatter.parse_line "[x] [y] z" =
      some { timestamp := "x", date := "", time := "", action := "y",
             name := "", message := "z" } ∧
    ((({ timestamp := "x", date := "", time := "", action := "y",
         name := "", message := "z" } : LogFormatter.ParsedLine).date = "") ↔
     (({ timestamp := "x", date := "", time := "", action := "y",
         name := "", message := "z" } : LogFormatter.ParsedLine).time = "")) :=
  ⟨by decide,
   (C4_timestamp_both_or_neither "[x] [y] z"
     { timestamp := "x", date := "", time := "", action := "y",
       name := "", message := "z" } (by decide)).2⟩

/-- The parse of the Alice radio-call line used to refute C5. -/
def aliceRadioParsed : LogFormatterSpec.SpeakerLine :=
  { timestamp := "2.02.2025 22:21:00", date := "2025-02-02",
    time := "22:21:00", action := "Czat IC",
    speaker_clause := "Alice Smith mówi (radio):", is_radio := true,
    message := "hello there." }

/-- C5 counterexample: with `groupA = {"John Doe"}` and only-related on, a
radio line spoken by Alice Smith — not a commands line, containing no
selected name — nevertheless survives the relatedness filter of
`MainWindow.update_workspace` (radio lines are exempted alongside
commands lines), contradicting the claim that commands lines are the only
exempt lines. -/
theorem C5_radio_exempt_counterexample :
    LogFormatterSpec.parse_line
      "[2.02.2025 22:21:00] [Czat IC] Alice Smith mówi (radio): hello there." =
      some aliceRadioParsed ∧
    MainWindow.relSurvives ["John Doe"] [] true aliceRadioParsed = true ∧
    aliceRadioParsed.action = "Czat IC" ∧
    aliceRadioParsed.is_radio = true ∧
    (["John Doe"].all fun nm =>
      !pyContains
        (pyLower (aliceRadioParsed.speaker_clause ++ " " ++ aliceRadioParsed.message))
        (pyLower nm)) = true ∧
    MainWindow.update_workspace
      { defaultCfg with show_only_related := true, selected_I := ["John Doe"] }
      ["[2.02.2025 22:21:00] [Czat IC] Alice Smith mówi (radio): hello there."] =
      [(1, .fmt "[2025-02-02 22:21:00]" "Czat IC" ""
        "Alice Smith mówi (radio):" "hello there.")] := by
  refine ⟨by decide, by decide, by decide, by decide, by decide, by decide⟩

/-- C5 amended: with only-related on, a parsed line survives the
relatedness filter of `MainWindow.update_workspace` iff its action is the
commands category, OR it is a radio line, or some selected group-A/group-B
name (lower-cased) occurs as a substring of the lower-cased concatenation
of its speaker clause and message. -/
theorem C5_relatedness_amended :
    ∀ (selI selO : List String) (p : LogFormatterSpec.SpeakerLine),
      MainWindow.relSurvives selI selO true p = true ↔
        (p.action = "Komenda" ∨ p.is_radio = true ∨
          ∃ nm ∈ selI ++ selO,
            pyContains (pyLower (p.speaker_clause ++ " " ++ p.message))
              (pyLower nm) = true) := by
  intro selI selO p
  have hsplit :
      (∃ nm ∈ selI ++ selO,
        pyContains (pyLower (p.speaker_clause ++ " " ++ p.message))
          (pyLower nm) = true) ↔
      ((∃ nm ∈ selI,
          pyContains (pyLower (p.speaker_clause ++ " " ++ p.message))
            (pyLower nm) = true) ∨
        (∃ nm ∈ selO,
          pyContains (pyLower (p.speaker_clause ++ " " ++ p.message))
            (pyLower nm) = true)) := by
    simp [List.mem_append, or_and_right, exists_or]
  have hmatch : ∀ sel : List String,
      ((MainWindow.relatedMatches sel p).isEmpty = false ↔
        ∃ nm ∈ sel,
          pyContains (pyLower (p.speaker_clause ++ " " ++ p.message))
            (pyLower nm) = true) := by
    intro sel
    simp [MainWindow.relatedMatches, List.isEmpty_iff, List.filter_eq_nil_iff]
  have halways : MainWindow.always_show p = true ↔
      (p.action = "Komenda" ∨ p.is_radio = true) := by
    simp [MainWindow.always_show]
  rw [hsplit]
  simp only [MainWindow.relSurvives, Bool.not_true, Bool.false_or,
    Bool.or_eq_true, Bool.not_eq_true']
  rw [halways, hmatch selI, hmatch selO, or_assoc, or_assoc]

theorem numberFrom_length (i : Nat) (l : List α) :
    (numberFrom i l).length = l.length := by
  induction l generalizing i with
  | nil => rfl
  | cons a as ih => simp [numberFrom, ih]

/-- C6: with all other view state held fixed, descending order renders
exactly the reverse of the ascending rendering (and vice versa), and in
either order the row indices are exactly 1..N in surviving order — for
both pipeline revisions.  Ordering is applied once to the whole transcript
before filtering, so the surviving set is order-independent. -/
theorem C6_sort_reversal :
    ∀ (cfg : ViewCfg) (lines : List String),
      (Workspace.update_view { cfg with order := .desc } lines).map Prod.snd =
        ((Workspace.update_view { cfg with order := .asc } lines).map Prod.snd).reverse ∧
      (Workspace.update_view { cfg with order := .asc } lines).map Prod.snd =
        ((Workspace.update_view { cfg with order := .desc } lines).map Prod.snd).reverse ∧
      (∀ o : SortOrder,
        (Workspace.update_view { cfg with order := o } lines).map Prod.fst =
          List.range' 1 (Workspace.update_view { cfg with order := o } lines).length) ∧
      (MainWindow.update_workspace { cfg with order := .desc } lines).map Prod.snd =
        ((MainWindow.update_workspace { cfg with order := .asc } lines).map Prod.snd).reverse ∧
      (∀ o : SortOrder,
        (MainWindow.update_workspace { cfg with order := o } lines).map Prod.fst =
          List.range' 1 (MainWindow.update_workspace { cfg with order := o } lines).length) := by
  intro cfg lines
  have hws : ∀ o : SortOrder,
      Workspace.processLine { cfg with order := o } = Workspace.processLine cfg :=
    fun o => rfl
  have hmw : ∀ o : SortOrder,
      MainWindow.processLine { cfg with order := o } = MainWindow.processLine cfg :=
    fun o => rfl
  refine ⟨?_, ?_, ?_, ?_, ?_⟩
  · simp [Workspace.update_view, numberFrom_map_snd, orient, hws,
      filterMap_reverse_eq]
  · simp [Workspace.update_view, numberFrom_map_snd, orient, hws,
      filterMap_reverse_eq]
  · intro o
    simp [Workspace.update_view, numberFrom_map_fst, numberFrom_length]
  · simp [MainWindow.update_workspace, numberFrom_map_snd, orient, hmw,
      filterMap_reverse_eq]
  · intro o
    simp [MainWindow.update_workspace, numberFrom_map_fst, numberFrom_length]

namespace LeftPanel

/-- The selection invariant: both order lists are duplicate-free and no
name is in both. -/
def Inv (st : SelState) : Prop :=
  st.I.Nodup ∧ st.O.Nodup ∧ ∀ n, ¬(n ∈ st.I ∧ n ∈ st.O)

theorem step_inv (st : SelState) (e : SelEvent) (h : Inv st) : Inv (step st e) := by
  obtain ⟨hI, hO, hd⟩ := h
  have happend : ∀ (l : List String) (n : String), l.Nodup →
      (if l.contains n then l else l ++ [n]).Nodup := by
    intro l n hl
    split_ifs with hc
    · exact hl
    · simp only [List.contains] at hc
      have hn : n ∉ l := fun hmem => hc (List.elem_iff.mpr hmem)
      simp [List.nodup_append, hl, hn]
  have hmem_if : ∀ (l : List String) (n m : String),
      m ∈ (if l.contains n then l else l ++ [n]) → m ∈ l ∨ m = n := by
    intro l n m hm
    split_ifs at hm with hc
    · exact Or.inl hm
    · simpa using hm
  cases e with
  | checkI n =>
    refine ⟨happend st.I n hI, hO.erase n, ?_⟩
    intro m ⟨hmI, hmO⟩
    have hmO' := (hO.mem_erase_iff).mp hmO
    rcases hmem_if st.I n m hmI with hmI' | rfl
    · exact hd m ⟨hmI', hmO'.2⟩
    · exact hmO'.1 rfl
  | uncheckI n =>
    refine ⟨hI.erase n, hO, ?_⟩
    intro m ⟨hmI, hmO⟩
    exact hd m ⟨List.mem_of_mem_erase hmI, hmO⟩
  | checkO n =>
    refine ⟨hI.erase n, happend st.O n hO, ?_⟩
    intro m ⟨hmI, hmO⟩
    have hmI' := (hI.mem_erase_iff).mp hmI
    rcases hmem_if st.O n m hmO with hmO' | rfl
    · exact hd m ⟨hmI'.2, hmO'⟩
    · exact hmI'.1 rfl
  | uncheckO n =>
    refine ⟨hI, hO.erase n, ?_⟩
    intro m ⟨hmI, hmO⟩
    exact hd m ⟨hmI, List.mem_of_mem_erase hmO⟩

theorem foldl_inv (evs : List SelEvent) (st : SelState) (h : Inv st) :
    Inv (evs.foldl step st) := by
  induction evs generalizing st with
  | nil => exact h
  | cons e es ih => exact ih (step st e) (step_inv st e h)

end LeftPanel

/-- C7: after every sequence of group-A/group-B selection and deselection
events, no name is present in both order lists at once. -/
theorem C7_mutual_exclusion :
    ∀ (evs : List LeftPanel.SelEvent) (n : String),
      ¬(n ∈ (LeftPanel.run evs).I ∧ n ∈ (LeftPanel.run evs).O) := by
  intro evs
  exact (LeftPanel.foldl_inv evs ⟨[], []⟩
    ⟨List.nodup_nil, List.nodup_nil, by simp⟩).2.2

/-- C8: what loading actually produces.  `user_frequencies` is created
empty and never written, for every input; and on the repository's own test
transcript no user at all is extracted (`USER_PATTERN`'s verb literal is
the mojibake "mÃ³wi", which the genuine word "mówi" does not contain) —
while the matcher does fire on text that literally contains the mojibake
sequence, isolating the defect to the pattern literal. -/
theorem C8_user_frequencies_never_populated :
    (∀ fileLines : List String,
      (LogParser.load_logs fileLines).user_frequencies = []) ∧
    (LogParser.load_logs
      ["[2.02.2025 22:19:38] [Czat IC] John Doe mówi: Hello world!",
       "[2.02.2025 22:20:48] [Czat IC] Jane Smith mówi: Hi there!",
       "Invalid log line"]).users = [] ∧
    LogParser.USER_PATTERN_search
      "[2.02.2025 22:19:38] [Czat IC] John Doe mówi: Hello world!".toList = none ∧
    LogParser.USER_PATTERN_search "John Doe mÃ³wi: x".toList =
      some "John Doe".toList := by
  refine ⟨fun fileLines => rfl, by decide, by decide, by decide⟩

theorem parse_lineE_ok (line : String) :
    LogFormatterSpec.parse_lineE line =
      Except.ok (LogFormatterSpec.parse_line line) := by
  cases h1 : LogFormatter.logPatternMatch line with
  | none => simp [LogFormatterSpec.parse_lineE, LogFormatterSpec.parse_line, h1]
  | some t =>
    obtain ⟨ts, ac, ms⟩ := t
    cases h2 : LogFormatter.strptimeDMY ts with
    | none =>
      simp [LogFormatterSpec.parse_lineE, LogFormatterSpec.parse_line,
        LogFormatterSpec.strptimeE, h1, h2]
    | some dt =>
      simp [LogFormatterSpec.parse_lineE, LogFormatterSpec.parse_line,
        LogFormatterSpec.strptimeE, h1, h2]

theorem rowsE_ok (cfg : ViewCfg) (ls : List String) :
    Workspace.rowsE cfg ls =
      Except.ok (ls.filterMap (Workspace.processLine cfg)) := by
  induction ls with
  | nil => rfl
  | cons l t ih =>
    cases h : Workspace.processParsed cfg l (LogFormatterSpec.parse_line l) with
    | none =>
      simp [Workspace.rowsE, parse_lineE_ok, ih, Workspace.processLine, h,
        List.filterMap_cons]
    | some row =>
      simp [Workspace.rowsE, parse_lineE_ok, ih, Workspace.processLine, h,
        List.filterMap_cons]

/-- C9: once a transcript is loaded the core operations are total and
transcript-preserving: line parsing always returns a value (its only
fallible call, `strptime`, raises only `ValueError`, which `parse_line`
catches), a full view recompute never propagates an exception and agrees
with the pure pipeline, and it leaves the stored raw-line list of the
workspace unchanged. -/
theorem C9_total_and_transcript_preserving :
    (∀ line : String,
      LogFormatterSpec.parse_lineE line =
        Except.ok (LogFormatterSpec.parse_line line)) ∧
    (∀ st : Workspace.WorkspaceSt,
      Workspace.update_viewE st =
        Except.ok { st with records := Workspace.update_view st.cfg st.raw_logs }) ∧
    (∀ st st' : Workspace.WorkspaceSt,
      Workspace.update_viewE st = Except.ok st' →
        st'.raw_logs = st.raw_logs) := by
  have h2 : ∀ st : Workspace.WorkspaceSt,
      Workspace.update_viewE st =
        Except.ok { st with records := Workspace.update_view st.cfg st.raw_logs } := by
    intro st
    simp [Workspace.update_viewE, rowsE_ok, Workspace.update_view]
  refine ⟨parse_lineE_ok, h2, ?_⟩
  intro st st' h
  rw [h2 st] at h
  injection h with h
  rw [← h]

/-- C10: `get_sorted_logs` with `ascending = true` returns the raw lines
sorted by the lexicographic (code-point) order on strings — a permutation
of the stored lines, generally not their file order — and with
`ascending = false` exactly the reverse of that sorted list. -/
theorem C10_get_sorted_logs :
    ∀ st : LogParser.LogParserState,
      List.Sorted (· ≤ ·) (LogParser.get_sorted_logs st true) ∧
      List.Perm (LogParser.get_sorted_logs st true) st.logs ∧
      LogParser.get_sorted_logs st false =
        (LogParser.get_sorted_logs st true).reverse := by
  intro st
  refine ⟨?_, ?_, ?_⟩
  · simpa [LogParser.get_sorted_logs] using
      List.sorted_insertionSort (· ≤ ·) st.logs
  · simpa [LogParser.get_sorted_logs] using
      List.perm_insertionSort (· ≤ ·) st.logs
  · haveI : IsAntisymm String (· ≤ ·) := ⟨fun a b => le_antisymm⟩
    have hp : List.Perm (List.insertionSort (· ≤ ·) st.logs.reverse)
        (List.insertionSort (· ≤ ·) st.logs) :=
      (List.perm_insertionSort _ _).trans
        ((st.logs.reverse_perm).trans (List.perm_insertionSort _ _).symm)
    have hs1 : List.Sorted (· ≤ ·) (List.insertionSort (· ≤ ·) st.logs.reverse) :=
      List.sorted_insertionSort _ _
    have hs2 : List.Sorted (· ≤ ·) (List.insertionSort (· ≤ ·) st.logs) :=
      List.sorted_insertionSort _ _
    have h1 : List.insertionSort (· ≤ ·) st.logs.reverse =
        List.insertionSort (· ≤ ·) st.logs :=
      List.eq_of_perm_of_sorted hp hs1 hs2
    show (st.logs.reverse.insertionSort (· ≤ ·)).reverse =
        (st.logs.insertionSort (· ≤ ·)).reverse
    rw [h1]

/-- C7 witness: the invariant applied to a concrete event trace in which
"Anna" is first selected as interviewer and then as interrogated; the
resulting state is also evaluated explicitly. -/
theorem C7_mutual_exclusion_witness :
    LeftPanel.run
      [.checkI "Anna", .checkO "Anna", .checkI "Bob"] =
      { I := ["Bob"], O := ["Anna"] } ∧
    ¬("Anna" ∈ (LeftPanel.run
        [.checkI "Anna", .checkO "Anna", .checkI "Bob"]).I ∧
      "Anna" ∈ (LeftPanel.run
        [.checkI "Anna", .checkO "Anna", .checkI "Bob"]).O) :=
  ⟨by decide,
   C7_mutual_exclusion [.checkI "Anna", .checkO "Anna", .checkI "Bob"] "Anna"⟩

/-- C9 witness: a concrete recompute — the stale records are replaced (the
unparsed line is dropped under the default toggles of this revision) and
the stored raw lines are untouched. -/
theorem C9_total_and_transcript_preserving_witness :
    Workspace.update_viewE
      { raw_logs := ["This is not a valid log line."], cfg := defaultCfg,
        records := [(9, .raw "stale")] } =
      Except.ok
        { raw_logs := ["This is not a valid log line."], cfg := defaultCfg,
          records := [] } ∧
    ({ raw_logs := ["This is not a valid log line."], cfg := defaultCfg,
       records := [] } : Workspace.WorkspaceSt).raw_logs =
      ({ raw_logs := ["This is not a valid log line."], cfg := defaultCfg,
         records := [(9, .raw "stale")] } : Workspace.WorkspaceSt).raw_logs :=
  ⟨C9_total_and_transcript_preserving.2.1
     { raw_logs := ["This is not a valid log line."], cfg := defaultCfg,
       records := [(9, .raw "stale")] },
   C9_total_and_transcript_preserving.2.2
     { raw_logs := ["This is not a valid log line."], cfg := defaultCfg,
       records := [(9, .raw "stale")] }
     { raw_logs := ["This is not a valid log line."], cfg := defaultCfg,
       records := [] }
     (C9_total_and_transcript_preserving.2.1
       { raw_logs := ["This is not a valid log line."], cfg := defaultCfg,
         records := [(9, .raw "stale")] })⟩
